import Mathlib

/-!
Verification of the gpeasant-sphinx RST generator (src/gp-sphinx.py).

The script is shallowly embedded at the level of character lists
(List Char): every Python string operation used by the generator is
modelled by an executable Lean function, documents are the character
lists the script writes, and the data fetched from the database is
passed in as explicit Lean data (rows are assumed to arrive in the
order the SQL ORDER BY clause produces, which is stated as a
hypothesis where a claim depends on it).

Modelling conventions, noted once here:
- a line boundary is the newline character; the generator only ever
  produces and manipulates newline-terminated text;
- Python whitespace (for str.split, str.strip in textwrap.indent) is
  modelled by the six ASCII whitespace characters;
- Python str(int) is modelled by a fuel-based decimal printer;
- SQL NULL is modelled by Option.
-/

/-- Python whitespace test restricted to the six ASCII whitespace
characters (space, tab, newline, carriage return, vertical tab,
form feed), as used by str.split() and by the line predicate of
textwrap.indent. -/
def isPyWS (c : Char) : Bool :=
  c = ' ' || c = '\t' || c = '\n' || c = '\r' || c = '\x0b' || c = '\x0c'

/-- Decimal digits of a natural number, with fuel for termination;
models the digit loop behind Python str(int) for non-negative input. -/
def natCharsAux : Nat → Nat → List Char
  | 0, _ => []
  | fuel + 1, n => if n < 10 then [Nat.digitChar n]
      else natCharsAux fuel (n / 10) ++ [Nat.digitChar (n % 10)]

/-- Python str(n) for a natural number n. -/
def natChars (n : Nat) : List Char :=
  natCharsAux (n + 1) n

/-- Python str(i) for an integer i: a minus sign before the decimal
digits of the absolute value when i is negative. -/
def intChars (i : Int) : List Char :=
  if i < 0 then '-' :: natChars i.natAbs else natChars i.natAbs

/-- Python str.replace applied with the fixed arguments of
format_table_row: every newline character becomes a newline, a blank
line and seven spaces (source line 149). -/
def replaceNl : List Char → List Char
  | [] => []
  | c :: cs => (if c = '\n' then "\n\n       ".data else [c]) ++ replaceNl cs

/-- Python str.splitlines(keepends=True) restricted to newline
boundaries: the text cut after every newline character, each piece
keeping its final newline. -/
def linesKE : List Char → List (List Char)
  | [] => []
  | c :: cs =>
    if c = '\n' then ['\n'] :: linesKE cs
    else
      match linesKE cs with
      | [] => [[c]]
      | l :: ls => (c :: l) :: ls

/-- textwrap.indent text pre: each line that contains a
non-whitespace character gets the prefix, whitespace-only lines are
left alone (the default predicate line.strip()). -/
def pyIndent (pre : List Char) (cs : List Char) : List Char :=
  ((linesKE cs).map (fun l => if l.all isPyWS then l else pre ++ l)).flatten

/-- Source format3: textwrap.indent(name, three spaces). -/
def format3 (cs : List Char) : List Char :=
  pyIndent "   ".data cs

/-- Source format_note: the note directive header, a blank line, and
the indented note body. -/
def format_note (note : List Char) : List Char :=
  ".. note:: ".data ++ "\n".data ++ "\n".data ++ format3 note

/-- Source format_header: the name, a newline, and one equals sign
per character of the name (Python len counts characters). -/
def format_header (name : List Char) : List Char :=
  name ++ "\n".data ++ List.replicate name.length '='

/-- A Python value as passed in a row tuple to format_table_row:
None, a string, or an integer. -/
inductive PyVal where
  | vnone
  | vstr (s : String)
  | vint (n : Int)
deriving DecidableEq

/-- Python str() on a row value. -/
def pyStr : PyVal → List Char
  | .vnone => "None".data
  | .vstr s => s.data
  | .vint n => intChars n

/-- The column transformation inside format_table_row's loop: a None
column becomes the empty string, any other column is converted with
str and its newlines are escaped. -/
def cellText : PyVal → List Char
  | .vnone => []
  | col => replaceNl (pyStr col)

/-- One table-cell block of format_table_row: the cell marker, the
escaped column text and a newline, indented by format3. -/
def cellRender (col : PyVal) : List Char :=
  format3 ("  - ".data ++ cellText col ++ "\n".data)

/-- The cell loop of format_table_row over the column tuple. -/
def rowCells : List PyVal → List Char
  | [] => []
  | col :: cols => cellRender col ++ rowCells cols

/-- Source format_table_row: the sequence-number cell followed by one
cell block per column. -/
def format_table_row (cols : List PyVal) (counter : Nat) : List Char :=
  format3 ("* - ".data ++ natChars counter ++ "\n".data) ++ rowCells cols

/-- Python str.split() tokenizer loop: skip whitespace, collect
maximal non-whitespace runs; acc holds the current token reversed. -/
def splitWSAux : List Char → List Char → List (List Char)
  | [], acc => if acc = [] then [] else [acc.reverse]
  | c :: cs, acc =>
    if isPyWS c then
      if acc = [] then splitWSAux cs [] else acc.reverse :: splitWSAux cs []
    else splitWSAux cs (c :: acc)

/-- Python str.split() with no arguments: whitespace-delimited
tokens, empty tokens discarded. -/
def pySplitWS (cs : List Char) : List (List Char) :=
  splitWSAux cs []

/-- Python sep.join(pieces): the pieces concatenated with sep between
consecutive pieces. -/
def joinSep (sep : List Char) : List (List Char) → List Char
  | [] => []
  | [t] => t
  | t :: ts => t ++ sep ++ joinSep sep ts

/-- The pieces of a text between its newline characters (n newlines
give n+1 pieces, none containing a newline); used to describe what
replaceNl does to a cell value. -/
def splitNl : List Char → List (List Char)
  | [] => [[]]
  | c :: cs =>
    if c = '\n' then [] :: splitNl cs
    else
      match splitNl cs with
      | [] => [[c]]
      | s :: ss => (c :: s) :: ss

/-- One Count row fetched for a locality (source lines 261-268):
category name and comment may be NULL through the LEFT JOIN and the
optional comment column, the count may be NULL in the ledger. -/
structure CountRow where
  category : Option String
  count : Option Int
  comment : Option String
deriving DecidableEq

/-- Source undefined_label (line 41). -/
def undefined_label : String := "В окладной ведомости не указано"

/-- Source root_title (line 40). -/
def root_title : String := "Административно-территориальное деление"

/-- The society name after the falsy check of source line 258: a
Python `if not soc_name` replaces both None (no associated society
row) and the empty string by the undefined label. -/
def soc_display (soc : Option String) : List Char :=
  match soc with
  | none => undefined_label.data
  | some s => if s = "" then undefined_label.data else s.data

/-- The value substituted for the socname slot: the displayed society
name with a period appended (source lines 298 and 308). -/
def soc_line (soc : Option String) : List Char :=
  soc_display soc ++ ".".data

/-- The value substituted for the index slot: the locality name
split on whitespace, first token dropped, the rest joined with single
spaces (source lines 296 and 306). -/
def indexKeyword (name : String) : List Char :=
  joinSep " ".data ((pySplitWS name.data).drop 1)

/-- The category column of a row as the Python value passed to
format_table_row. -/
def catCell (r : CountRow) : PyVal :=
  match r.category with
  | none => PyVal.vnone
  | some s => PyVal.vstr s

/-- The count column after the comment check of source lines 277-278:
with a comment the count becomes the string str(count) followed by
the marker glyph, otherwise the raw value is passed through. -/
def countCell (r : CountRow) : PyVal :=
  match r.comment with
  | some _ => PyVal.vstr (String.mk (pyStr (match r.count with
      | none => PyVal.vnone
      | some n => PyVal.vint n) ++ "*".data))
  | none =>
    match r.count with
    | none => PyVal.vnone
    | some n => PyVal.vint n

/-- The table-accumulation loop of source lines 276-282: one
format_table_row call per row, counter incremented per row. -/
def genTable : List CountRow → Nat → List Char
  | [], _ => []
  | r :: rs, counter =>
    format_table_row [catCell r, countCell r] counter ++ genTable rs (counter + 1)

/-- The comments list accumulated by the same loop: comments appended
in row-encounter order whenever the comment is not None. -/
def genCommentsList : List CountRow → List String
  | [] => []
  | r :: rs =>
    match r.comment with
    | some c => c :: genCommentsList rs
    | none => genCommentsList rs

/-- The footnote-text loop of source lines 287-291: one numbered
entry per comment, numbering starting at the given counter. -/
def genCommentTxt : List String → Nat → List Char
  | [], _ => []
  | c :: cs, k =>
    "(".data ++ natChars k ++ "*) ".data ++ c.data ++ "\n".data ++ "\n".data
      ++ genCommentTxt cs (k + 1)

/-- The datasheet slot value of source lines 284-293: the table, and
when at least one comment was collected, a blank separator and the
note block holding the footnote text. -/
def datasheetBody (rows : List CountRow) : List Char :=
  let table := genTable rows 1
  let comments := genCommentsList rows
  if comments.length > 0 then
    table ++ "\n".data ++ "\n".data ++ format_note (genCommentTxt comments 1)
  else table

/-- Source datasheet_templ (lines 64-89) after textwrap.dedent, as a
function of its four format slots; written one template line per
chunk. -/
def datasheet_templ (idx title socname body : List Char) : List Char :=
  "\n".data ++
  ".. Datasheet RST template".data ++ "\n".data ++
  ".. Autogenerated by gp-sphinx.py".data ++ "\n".data ++
  "\n".data ++
  ".. index:: ".data ++ idx ++ "\n".data ++
  "\n".data ++
  title ++ "\n".data ++
  "\n".data ++
  "Сельское общество".data ++ "\n".data ++
  "-----------------".data ++ "\n".data ++
  socname ++ "\n".data ++
  "\n".data ++
  "Сведения о государственных крестьянах".data ++ "\n".data ++
  "--------------------------------------".data ++ "\n".data ++
  "\n".data ++
  ".. list-table::".data ++ "\n".data ++
  "   :header-rows: 1".data ++ "\n".data ++
  "   :widths: 10 70 20".data ++ "\n".data ++
  "\n".data ++
  "   * - #".data ++ "\n".data ++
  "     - Категория крестьян".data ++ "\n".data ++
  "     - Количество душ м.п.".data ++ "\n".data ++
  "\n".data ++
  body ++ "\n".data ++
  "\n".data

/-- Source datasheet_empty_templ (lines 92-109) after
textwrap.dedent, as a function of its three format slots. -/
def datasheet_empty_templ (idx title socname : List Char) : List Char :=
  "\n".data ++
  ".. Datasheet RST template".data ++ "\n".data ++
  ".. Autogenerated by gp-sphinx.py".data ++ "\n".data ++
  "\n".data ++
  ".. index:: ".data ++ idx ++ "\n".data ++
  "\n".data ++
  title ++ "\n".data ++
  "\n".data ++
  "Сельское общество".data ++ "\n".data ++
  "-----------------".data ++ "\n".data ++
  socname ++ "\n".data ++
  "\n".data ++
  "Сведения о государственных крестьянах".data ++ "\n".data ++
  "--------------------------------------".data ++ "\n".data ++
  "\n".data ++
  "В окладной ведомости сведения о числе государственных крестьян отсутствуют.".data ++ "\n".data ++
  "\n".data

/-- Source tree_templ (lines 50-61) after textwrap.dedent, as a
function of its three format slots. -/
def tree_templ (title members maxdepth : List Char) : List Char :=
  "\n".data ++
  ".. Tree RST template".data ++ "\n".data ++
  ".. Autogenerated by gp-sphinx.py".data ++ "\n".data ++
  "\n".data ++
  title ++ "\n".data ++
  "\n".data ++
  ".. toctree::".data ++ "\n".data ++
  "   :maxdepth: ".data ++ maxdepth ++ "\n".data ++
  "\n".data ++
  members ++ "\n".data ++
  "\n".data

/-- The document text produced by gen_datasheets (source lines
250-310) for one locality, given the society-name lookup result and
the ordered Count rows: the data-table template when there is at
least one row, the empty template otherwise. -/
def gen_datasheet_doc (l_name : String) (soc : Option String)
    (rows : List CountRow) : List Char :=
  match rows with
  | [] =>
    datasheet_empty_templ (indexKeyword l_name) (format_header l_name.data)
      (soc_line soc)
  | _ :: _ =>
    datasheet_templ (indexKeyword l_name) (format_header l_name.data)
      (soc_line soc) (datasheetBody rows)

/-- A locality row together with its two per-locality lookups: the
society name (LEFT JOIN, so possibly NULL) and the ordered Count
rows. -/
structure Locality where
  id : Nat
  name : String
  soc : Option String
  counts : List CountRow
deriving DecidableEq

/-- A volost (canton) row with its localities in fetch order. -/
structure Volost where
  id : Nat
  name : String
  localities : List Locality
deriving DecidableEq

/-- An uezd (district) row with its volosts in fetch order. -/
structure Uezd where
  id : Nat
  name : String
  volosts : List Volost
deriving DecidableEq

/-- A gubernia (province) row with its uezds in fetch order. -/
structure Gubernia where
  id : Nat
  name : String
  uezds : List Uezd
deriving DecidableEq

/-- The members accumulation shared by the four traversal methods:
per child, format3 applied to segment, slash, child id, slash,
the word index and a newline. -/
def membersList (seg : String) : List Nat → List Char
  | [] => []
  | i :: rest =>
    format3 (seg.data ++ "/".data ++ natChars i ++ "/index\n".data)
      ++ membersList seg rest

/-- The root index document written by gen_gubernias (source lines
177-182): the fixed root title, one member per gubernia, maxdepth 2. -/
def root_index_rst (gubs : List Gubernia) : List Char :=
  tree_templ (format_header root_title.data)
    (membersList "gubernia" (gubs.map (fun g => g.id))) (natChars 2)

/-- The per-gubernia index document written by gen_uezds (source
lines 199-204): the gubernia name as title, one member per uezd,
maxdepth 2. -/
def gubernia_index_rst (g : Gubernia) : List Char :=
  tree_templ (format_header g.name.data)
    (membersList "uezd" (g.uezds.map (fun u => u.id))) (natChars 2)

/-- The per-uezd index document written by gen_volosts (source lines
221-226): the uezd name as title, one member per volost, maxdepth 1. -/
def uezd_index_rst (u : Uezd) : List Char :=
  tree_templ (format_header u.name.data)
    (membersList "volost" (u.volosts.map (fun v => v.id))) (natChars 1)

/-- The per-volost index document written by gen_localities (source
lines 243-248): the volost name as title, one member per locality,
maxdepth 1. -/
def volost_index_rst (v : Volost) : List Char :=
  tree_templ (format_header v.name.data)
    (membersList "locality" (v.localities.map (fun l => l.id))) (natChars 1)

/-- A generated file: its path segments below the output root and its
text content. -/
abbrev OutFile := List String × List Char

/-- Files written while visiting one locality directory. -/
def gen_datasheets_out (dir : List String) (l : Locality) : List OutFile :=
  [(dir ++ ["index.rst"], gen_datasheet_doc l.name l.soc l.counts)]

/-- Files written while visiting one volost directory: the datasheet
of every locality child first, then the volost index (the source
writes the parent page after the recursion). -/
def gen_localities_out (dir : List String) (v : Volost) : List OutFile :=
  (v.localities.map (fun l =>
      gen_datasheets_out (dir ++ ["locality", String.mk (natChars l.id)]) l)).flatten
    ++ [(dir ++ ["index.rst"], volost_index_rst v)]

/-- Files written while visiting one uezd directory. -/
def gen_volosts_out (dir : List String) (u : Uezd) : List OutFile :=
  (u.volosts.map (fun v =>
      gen_localities_out (dir ++ ["volost", String.mk (natChars v.id)]) v)).flatten
    ++ [(dir ++ ["index.rst"], uezd_index_rst u)]

/-- Files written while visiting one gubernia directory. -/
def gen_uezds_out (dir : List String) (g : Gubernia) : List OutFile :=
  (g.uezds.map (fun u =>
      gen_volosts_out (dir ++ ["uezd", String.mk (natChars u.id)]) u)).flatten
    ++ [(dir ++ ["index.rst"], gubernia_index_rst g)]

/-- Files written by gen_gubernias over the whole data source: every
gubernia subtree, then the root index. -/
def gen_gubernias_out (gubs : List Gubernia) : List OutFile :=
  (gubs.map (fun g =>
      gen_uezds_out (["gubernia", String.mk (natChars g.id)]) g)).flatten
    ++ [(["index.rst"], root_index_rst gubs)]

/-- The output tree as a mapping from paths to text contents. -/
abbrev FS := List OutFile

/-- Source clear (lines 128-130): the whole output tree is removed,
whatever it held. -/
def clearTree (_fs : FS) : FS := []

/-- Source file_write (lines 122-126): create or overwrite one file. -/
def fileWrite (fs : FS) (p : List String) (c : List Char) : FS :=
  fs.filter (fun e => e.1 ≠ p) ++ [(p, c)]

/-- Apply a list of writes to a tree in order. -/
def writeAll (fs : FS) : List OutFile → FS
  | [] => fs
  | (p, c) :: rest => writeAll (fileWrite fs p c) rest

/-- Source generate (lines 312-316): clear the output tree, then
regenerate every document from the data source. -/
def generate (fs : FS) (gubs : List Gubernia) : FS :=
  writeAll (clearTree fs) (gen_gubernias_out gubs)

/-- The ordering the SQL ORDER BY category.name clause is modelled
with: NULL category names sort first (MariaDB ascending NULL
placement), present names by the string order. -/
def optLe (a b : Option String) : Prop :=
  match a, b with
  | none, _ => True
  | some _, none => False
  | some x, some y => x ≤ y

instance (a b : Option String) : Decidable (optLe a b) :=
  match a, b with
  | none, _ => isTrue trivial
  | some _, none => isFalse fun h => h
  | some x, some y => inferInstanceAs (Decidable (x ≤ y))

instance : IsTrans (Option String) optLe where
  trans := by
    intro a b c hab hbc
    cases a with
    | none => trivial
    | some x =>
      cases b with
      | none => exact absurd hab fun h => h
      | some y =>
        cases c with
        | none => exact hbc
        | some z => exact le_trans hab hbc

/-- The newline literal as an explicit character list. -/
theorem nl_data : ("\n" : String).data = ['\n'] := rfl

/-- linesKE sends nonempty text to a nonempty line list. -/
theorem linesKE_ne_nil {cs : List Char} (h : cs ≠ []) : linesKE cs ≠ [] := by
  cases cs with
  | nil => exact absurd rfl h
  | cons c cs =>
    simp only [linesKE]
    split
    · simp
    · split <;> simp

/-- Peeling one blank line off the front of a text. -/
theorem linesKE_nl_cons (ys : List Char) :
    linesKE ('\n' :: ys) = ['\n'] :: linesKE ys := by
  simp [linesKE]

/-- Splitting into kept-ends lines distributes over appending after a
newline. -/
theorem linesKE_append_newline (xs ys : List Char) :
    linesKE ((xs ++ ['\n']) ++ ys) = linesKE (xs ++ ['\n']) ++ linesKE ys := by
  induction xs with
  | nil => simp [linesKE]
  | cons c xs ih =>
    by_cases hc : c = '\n'
    · subst hc
      have e1 : (('\n' :: xs) ++ ['\n']) ++ ys = '\n' :: ((xs ++ ['\n']) ++ ys) := by
        simp
      have e2 : ('\n' :: xs) ++ ['\n'] = '\n' :: (xs ++ ['\n']) := by simp
      rw [e1, e2, linesKE_nl_cons, linesKE_nl_cons, ih, List.cons_append]
    · obtain ⟨l, ls, hls⟩ := List.exists_cons_of_ne_nil
        (@linesKE_ne_nil (xs ++ ['\n']) (by simp))
      simp only [List.cons_append, linesKE, List.append_eq, if_neg hc, ih, hls]

/-- A newline-free text followed by a newline is a single line. -/
theorem linesKE_single {xs : List Char} (h : '\n' ∉ xs) :
    linesKE (xs ++ ['\n']) = [xs ++ ['\n']] := by
  induction xs with
  | nil => simp [linesKE]
  | cons c xs ih =>
    have hc : c ≠ '\n' := fun e => h (e ▸ List.mem_cons_self c xs)
    have ihh := ih (fun hm => h (List.mem_cons_of_mem _ hm))
    simp only [List.cons_append, linesKE, List.append_eq, if_neg hc, ihh]

/-- Peeling one full line off the front of a text. -/
theorem linesKE_line_cons {xs : List Char} (ys : List Char) (h : '\n' ∉ xs) :
    linesKE (xs ++ '\n' :: ys) = (xs ++ ['\n']) :: linesKE ys := by
  have e : xs ++ '\n' :: ys = (xs ++ ['\n']) ++ ys := by simp
  rw [e, linesKE_append_newline, linesKE_single h]
  rfl

/-- Peeling one full line made of two newline-free pieces. -/
theorem linesKE_line2_cons {xs zs : List Char} (ys : List Char)
    (h1 : '\n' ∉ xs) (h2 : '\n' ∉ zs) :
    linesKE (xs ++ (zs ++ '\n' :: ys)) = ((xs ++ zs) ++ ['\n']) :: linesKE ys := by
  rw [← List.append_assoc, linesKE_line_cons ys (by
    intro hm
    rcases List.mem_append.mp hm with h | h
    · exact h1 h
    · exact h2 h)]

/-- Indenting distributes over appending after a newline. -/
theorem pyIndent_append_newline (pre xs ys : List Char) :
    pyIndent pre ((xs ++ ['\n']) ++ ys)
      = pyIndent pre (xs ++ ['\n']) ++ pyIndent pre ys := by
  simp only [pyIndent]
  rw [linesKE_append_newline, List.map_append, List.flatten_append]

/-- A single newline-free line containing a non-whitespace character
receives the indent prefix. -/
theorem format3_single_nb {xs : List Char} (h : '\n' ∉ xs)
    (hnb : xs.all isPyWS = false) :
    format3 (xs ++ ['\n']) = "   ".data ++ (xs ++ ['\n']) := by
  have hcond : ¬ ((xs ++ ['\n']).all isPyWS = true) := by
    simp [List.all_append, hnb]
  simp only [format3, pyIndent, linesKE_single h, List.map_cons, List.map_nil,
    List.flatten_cons, List.flatten_nil, if_neg hcond, List.append_nil]

/-- Peeling an indented non-blank line off the front of format3. -/
theorem format3_line_cons_nb {xs : List Char} (ys : List Char) (h : '\n' ∉ xs)
    (hnb : xs.all isPyWS = false) :
    format3 (xs ++ '\n' :: ys)
      = ("   ".data ++ (xs ++ ['\n'])) ++ format3 ys := by
  have e : xs ++ '\n' :: ys = (xs ++ ['\n']) ++ ys := by simp
  rw [e, show format3 ((xs ++ ['\n']) ++ ys)
        = format3 (xs ++ ['\n']) ++ format3 ys from
      pyIndent_append_newline _ _ _,
    format3_single_nb h hnb]

/-- A blank line passes through format3 unindented. -/
theorem format3_nl_cons (ys : List Char) :
    format3 ('\n' :: ys) = '\n' :: format3 ys := by
  have hcond : (['\n'] : List Char).all isPyWS = true := by decide
  simp only [format3, pyIndent, linesKE_nl_cons, List.map_cons,
    List.flatten_cons, if_pos hcond, List.singleton_append]

/-- Every character printed by the decimal digit loop is a digit. -/
theorem natCharsAux_digit :
    ∀ fuel n, ∀ c ∈ natCharsAux fuel n, c.isDigit = true := by
  intro fuel
  induction fuel with
  | zero => intro n c hc; simp [natCharsAux] at hc
  | succ fuel ih =>
    intro n c hc
    simp only [natCharsAux] at hc
    split at hc
    case isTrue hlt =>
      simp only [List.mem_singleton] at hc
      subst hc
      interval_cases n <;> decide
    case isFalse =>
      rcases List.mem_append.mp hc with h1 | h2
      · exact ih _ _ h1
      · simp only [List.mem_singleton] at h2
        subst h2
        have hm : n % 10 < 10 := Nat.mod_lt _ (by decide)
        set m := n % 10 with hmm
        interval_cases m <;> decide

/-- Every character of a printed natural number is a digit. -/
theorem natChars_digit (n : Nat) : ∀ c ∈ natChars n, c.isDigit = true :=
  natCharsAux_digit _ _

/-- Printed natural numbers contain no newline. -/
theorem natChars_no_nl (n : Nat) : '\n' ∉ natChars n := by
  intro h
  have := natChars_digit n _ h
  exact absurd this (by decide)

/-- Printed integers contain no newline. -/
theorem intChars_no_nl (i : Int) : '\n' ∉ intChars i := by
  unfold intChars
  split
  · intro h
    rcases List.mem_cons.mp h with h | h
    · exact absurd h (by decide)
    · exact natChars_no_nl _ h
  · exact natChars_no_nl _

/-- Newline-free text passes through the newline escaping unchanged. -/
theorem replaceNl_eq_self {cs : List Char} (h : '\n' ∉ cs) :
    replaceNl cs = cs := by
  induction cs with
  | nil => rfl
  | cons c cs ih =>
    have hc : c ≠ '\n' := fun e => h (e ▸ List.mem_cons_self c cs)
    simp [replaceNl, hc, ih (fun hm => h (List.mem_cons_of_mem _ hm))]

/-- Tokens produced by the split loop contain no whitespace. -/
theorem splitWSAux_no_ws :
    ∀ (cs acc : List Char), (∀ a ∈ acc, isPyWS a = false) →
      ∀ t ∈ splitWSAux cs acc, ∀ c ∈ t, isPyWS c = false := by
  intro cs
  induction cs with
  | nil =>
    intro acc hacc t ht c hc
    simp only [splitWSAux] at ht
    split at ht
    · simp at ht
    · simp only [List.mem_singleton] at ht
      subst ht
      exact hacc c (List.mem_reverse.mp hc)
  | cons a cs ih =>
    intro acc hacc t ht c hc
    simp only [splitWSAux] at ht
    split at ht
    · split at ht
      · exact ih [] (by simp) t ht c hc
      · rcases List.mem_cons.mp ht with h | h
        · subst h
          exact hacc c (List.mem_reverse.mp hc)
        · exact ih [] (by simp) t h c hc
    case isFalse hna =>
      refine ih (a :: acc) ?_ t ht c hc
      intro b hb
      rcases List.mem_cons.mp hb with h | h
      · subst h
        simpa using hna
      · exact hacc b h

/-- Joining whitespace-free pieces with a newline-free separator
yields a newline-free text. -/
theorem joinSep_no_nl {sep : List Char} (hsep : '\n' ∉ sep) :
    ∀ ts : List (List Char), (∀ t ∈ ts, ∀ c ∈ t, isPyWS c = false) →
      '\n' ∉ joinSep sep ts := by
  intro ts
  induction ts with
  | nil => intro _ h; simp [joinSep] at h
  | cons t ts ih =>
    intro hts h
    cases ts with
    | nil =>
      have := hts t (List.mem_singleton.mpr rfl) '\n' (by simpa [joinSep] using h)
      exact absurd this (by decide)
    | cons t2 ts2 =>
      simp only [joinSep] at h
      rcases List.mem_append.mp h with h1 | h2
      · rcases List.mem_append.mp h1 with h3 | h4
        · have := hts t (List.mem_cons_self _ _) '\n' h3
          exact absurd this (by decide)
        · exact hsep h4
      · exact ih (fun u hu => hts u (List.mem_cons_of_mem _ hu)) h2

/-- The index keyword of a locality name contains no newline. -/
theorem indexKeyword_no_nl (name : String) : '\n' ∉ indexKeyword name := by
  apply joinSep_no_nl (by decide)
  intro t ht c hc
  exact splitWSAux_no_ws name.data [] (by simp) t
    (List.drop_subset _ _ ht) c hc

/-- Every format_table_row block starts with the indented row marker,
the printed counter and a newline, followed by the cell blocks. -/
theorem format_table_row_head (cols : List PyVal) (counter : Nat) :
    format_table_row cols counter
      = "   * - ".data ++ natChars counter ++ '\n' :: rowCells cols := by
  have hnn : '\n' ∉ "* - ".data ++ natChars counter := by
    intro hm
    rcases List.mem_append.mp hm with h | h
    · exact absurd h (by decide)
    · exact natChars_no_nl _ h
  have hnb : ("* - ".data ++ natChars counter).all isPyWS = false := by
    rw [List.all_append, show ("* - ".data).all isPyWS = false from by decide,
      Bool.false_and]
  have e : "* - ".data ++ natChars counter ++ "\n".data
      = ("* - ".data ++ natChars counter) ++ ['\n'] := by simp
  simp only [format_table_row, e, format3_single_nb hnn hnb]
  simp

/-- splitNl never returns an empty piece list. -/
theorem splitNl_ne_nil (cs : List Char) : splitNl cs ≠ [] := by
  cases cs with
  | nil => simp [splitNl]
  | cons c cs =>
    simp only [splitNl]
    split
    · simp
    · split <;> simp

/-- No piece produced by splitNl contains a newline. -/
theorem splitNl_no_nl : ∀ (cs : List Char), ∀ s ∈ splitNl cs, '\n' ∉ s := by
  intro cs
  induction cs with
  | nil =>
    intro s hs
    simp only [splitNl, List.mem_singleton] at hs
    subst hs
    simp
  | cons c cs ih =>
    intro s hs
    simp only [splitNl] at hs
    split at hs
    · rcases List.mem_cons.mp hs with h | h
      · subst h; simp
      · exact ih s h
    case isFalse hc =>
      obtain ⟨t, ts, hsp⟩ := List.exists_cons_of_ne_nil (splitNl_ne_nil cs)
      rw [hsp] at hs
      simp only [List.mem_cons] at hs
      rcases hs with h | h
      · subst h
        intro hmem
        rcases List.mem_cons.mp hmem with h | h
        · exact hc h.symm
        · exact ih t (hsp ▸ List.mem_cons_self t ts) h
      · exact ih s (hsp ▸ List.mem_cons_of_mem t h)

/-- The newline escaping of format_table_row, described structurally:
the newline-separated pieces of the value joined by a newline, a
blank line and seven spaces. -/
theorem replaceNl_joinSep (cs : List Char) :
    replaceNl cs = joinSep "\n\n       ".data (splitNl cs) := by
  induction cs with
  | nil => rfl
  | cons c cs ih =>
    by_cases hc : c = '\n'
    · subst hc
      simp only [replaceNl, if_pos rfl, splitNl]
      obtain ⟨t, ts, hsp⟩ := List.exists_cons_of_ne_nil (splitNl_ne_nil cs)
      rw [hsp, ih, hsp]
      simp [joinSep]
    · simp only [replaceNl, if_neg hc, splitNl]
      obtain ⟨t, ts, hsp⟩ := List.exists_cons_of_ne_nil (splitNl_ne_nil cs)
      rw [hsp, ih, hsp]
      cases ts with
      | nil => simp [joinSep]
      | cons t2 ts2 => simp [joinSep]

/-- cellText on a string value is the escaped string. -/
theorem cellText_vstr (s : String) :
    cellText (PyVal.vstr s) = replaceNl s.data := rfl

/-- Indenting the continuation block of an escaped cell: each piece
sits on its own line behind seven spaces before indenting and ten
after, with a blank line between pieces. -/
theorem format3_contin (segs : List (List Char)) (hne : segs ≠ [])
    (hnl : ∀ t ∈ segs, '\n' ∉ t) (hnb : ∀ t ∈ segs, t.all isPyWS = false) :
    format3 ("       ".data ++ joinSep "\n\n       ".data segs ++ ['\n'])
      = "          ".data ++ joinSep "\n\n          ".data segs ++ ['\n'] := by
  induction segs with
  | nil => exact absurd rfl hne
  | cons s rest ih =>
    cases rest with
    | nil =>
      have hs : '\n' ∉ "       ".data ++ s := by
        intro hm
        rcases List.mem_append.mp hm with h | h
        · exact absurd h (by decide)
        · exact hnl s (List.mem_singleton.mpr rfl) h
      have hb : ("       ".data ++ s).all isPyWS = false := by
        rw [List.all_append, show ("       ".data).all isPyWS = true from by decide,
          Bool.true_and]
        exact hnb s (List.mem_singleton.mpr rfl)
      have e : "       ".data ++ joinSep "\n\n       ".data [s] ++ ['\n']
          = ("       ".data ++ s) ++ ['\n'] := by simp [joinSep]
      rw [e, format3_single_nb hs hb]
      simp [joinSep]
    | cons s2 rest2 =>
      have hs : '\n' ∉ "       ".data ++ s := by
        intro hm
        rcases List.mem_append.mp hm with h | h
        · exact absurd h (by decide)
        · exact hnl s (List.mem_cons_self _ _) h
      have hb : ("       ".data ++ s).all isPyWS = false := by
        rw [List.all_append, show ("       ".data).all isPyWS = true from by decide,
          Bool.true_and]
        exact hnb s (List.mem_cons_self _ _)
      have e : "       ".data ++ joinSep "\n\n       ".data (s :: s2 :: rest2) ++ ['\n']
          = ("       ".data ++ s) ++ '\n' :: '\n' ::
            ("       ".data ++ joinSep "\n\n       ".data (s2 :: rest2) ++ ['\n']) := by
        simp [joinSep]
      rw [e, format3_line_cons_nb _ hs hb, format3_nl_cons,
        ih (by simp) (fun t ht => hnl t (List.mem_cons_of_mem _ ht))
          (fun t ht => hnb t (List.mem_cons_of_mem _ ht))]
      simp [joinSep]

/-- The cell block of a string value whose pieces after the first are
not whitespace-only: the escaped newlines become blank-line-separated
continuation lines behind ten spaces. -/
theorem cellRender_vstr (s : String)
    (h : ∀ t ∈ (splitNl s.data).tail, t.all isPyWS = false) :
    cellRender (PyVal.vstr s)
      = "     - ".data ++ joinSep "\n\n          ".data (splitNl s.data) ++ ['\n'] := by
  rw [cellRender, cellText_vstr, replaceNl_joinSep]
  obtain ⟨t, ts, hsp⟩ := List.exists_cons_of_ne_nil (splitNl_ne_nil s.data)
  rw [hsp]
  cases ts with
  | nil =>
    have hsnl : '\n' ∉ "  - ".data ++ t := by
      intro hm
      rcases List.mem_append.mp hm with hx | hx
      · exact absurd hx (by decide)
      · exact splitNl_no_nl s.data t (hsp ▸ List.mem_cons_self _ _) hx
    have hb : ("  - ".data ++ t).all isPyWS = false := by
      rw [List.all_append, show ("  - ".data).all isPyWS = false from by decide,
        Bool.false_and]
    have e : "  - ".data ++ joinSep "\n\n       ".data [t] ++ "\n".data
        = ("  - ".data ++ t) ++ ['\n'] := by simp [joinSep]
    rw [e, format3_single_nb hsnl hb]
    simp [joinSep]
  | cons t2 ts2 =>
    have hsnl : '\n' ∉ "  - ".data ++ t := by
      intro hm
      rcases List.mem_append.mp hm with hx | hx
      · exact absurd hx (by decide)
      · exact splitNl_no_nl s.data t (hsp ▸ List.mem_cons_self _ _) hx
    have hb : ("  - ".data ++ t).all isPyWS = false := by
      rw [List.all_append, show ("  - ".data).all isPyWS = false from by decide,
        Bool.false_and]
    have e : "  - ".data ++ joinSep "\n\n       ".data (t :: t2 :: ts2) ++ "\n".data
        = ("  - ".data ++ t) ++ '\n' :: '\n' ::
          ("       ".data ++ joinSep "\n\n       ".data (t2 :: ts2) ++ ['\n']) := by
      simp [joinSep]
    have htail : ∀ u ∈ t2 :: ts2, u.all isPyWS = false := by
      intro u hu
      exact h u (by rw [hsp]; exact hu)
    rw [e, format3_line_cons_nb _ hsnl hb, format3_nl_cons,
      format3_contin (t2 :: ts2) (by simp)
        (fun u hu => splitNl_no_nl s.data u (hsp ▸ List.mem_cons_of_mem _ hu))
        htail]
    simp [joinSep]

/-- The cell block of a newline-free string value: the value appears
unchanged behind the indented cell marker. -/
theorem cellRender_vstr_no_nl (s : String) (h : '\n' ∉ s.data) :
    cellRender (PyVal.vstr s) = "     - ".data ++ s.data ++ ['\n'] := by
  rw [cellRender, cellText_vstr, replaceNl_eq_self h]
  have hsnl : '\n' ∉ "  - ".data ++ s.data := by
    intro hm
    rcases List.mem_append.mp hm with hx | hx
    · exact absurd hx (by decide)
    · exact h hx
  have hb : ("  - ".data ++ s.data).all isPyWS = false := by
    rw [List.all_append, show ("  - ".data).all isPyWS = false from by decide,
      Bool.false_and]
  have e : "  - ".data ++ s.data ++ "\n".data = ("  - ".data ++ s.data) ++ ['\n'] := by
    simp
  rw [e, format3_single_nb hsnl hb]
  simp

/-- The table loop, characterized: one format_table_row block per
row, the counter column enumerating the rows from the start value. -/
theorem genTable_enumFrom (rows : List CountRow) :
    ∀ k, genTable rows k
      = ((List.enumFrom k rows).map
          (fun p => format_table_row [catCell p.2, countCell p.2] p.1)).flatten := by
  induction rows with
  | nil => intro k; rfl
  | cons r rs ih =>
    intro k
    simp only [genTable, List.enumFrom, List.map_cons, List.flatten_cons, ih (k + 1)]

/-- The first components of an enumeration from k are the consecutive
numbers from k. -/
theorem enumFrom_fst (rows : List CountRow) :
    ∀ k, (List.enumFrom k rows).map Prod.fst = List.range' k rows.length := by
  induction rows with
  | nil => intro k; rfl
  | cons r rs ih =>
    intro k
    simp only [List.enumFrom, List.map_cons, List.length_cons, List.range'_succ,
      ih (k + 1)]

/-- The comments collected by the table loop are exactly the present
comment fields, in row order. -/
theorem genCommentsList_filterMap (rows : List CountRow) :
    genCommentsList rows = rows.filterMap (fun r => r.comment) := by
  induction rows with
  | nil => rfl
  | cons r rs ih =>
    cases hc : r.comment with
    | none => simp [genCommentsList, hc, List.filterMap_cons, ih]
    | some c => simp [genCommentsList, hc, List.filterMap_cons, ih]

/-- The footnote loop, characterized: one parenthesized numbered
entry per comment, numbers enumerating the comments from the start
value. -/
theorem genCommentTxt_enumFrom (cs : List String) :
    ∀ k, genCommentTxt cs k
      = ((List.enumFrom k cs).map
          (fun p => "(".data ++ natChars p.1 ++ "*) ".data ++ p.2.data
            ++ "\n".data ++ "\n".data)).flatten := by
  induction cs with
  | nil => intro k; rfl
  | cons c cs ih =>
    intro k
    simp only [genCommentTxt, List.enumFrom, List.map_cons, List.flatten_cons,
      ih (k + 1)]

/-- Counting collected comments equals counting rows whose comment is
present. -/
theorem genCommentsList_length (rows : List CountRow) :
    (genCommentsList rows).length = rows.countP (fun r => r.comment.isSome) := by
  induction rows with
  | nil => rfl
  | cons r rs ih =>
    cases hc : r.comment with
    | none => simp [genCommentsList, hc, List.countP_cons, ih]
    | some c => simp [genCommentsList, hc, List.countP_cons, ih]

/-- The maxdepth line of any tree-template instance whose maxdepth
slot is a printed number is a full line of the document. -/
theorem tree_templ_maxdepth (title members : List Char) (d : Nat) :
    ("   :maxdepth: ".data ++ natChars d ++ ['\n'])
      ∈ linesKE (tree_templ title members (natChars d)) := by
  have e : tree_templ title members (natChars d)
      = (("\n".data ++ ".. Tree RST template".data ++ "\n".data
          ++ ".. Autogenerated by gp-sphinx.py".data ++ "\n".data ++ "\n".data
          ++ title ++ "\n".data ++ "\n".data ++ ".. toctree::".data) ++ ['\n'])
        ++ (("   :maxdepth: ".data ++ natChars d)
          ++ '\n' :: ("\n".data ++ members ++ "\n".data ++ "\n".data)) := by
    simp [tree_templ]
  rw [e, linesKE_append_newline]
  apply List.mem_append_right
  rw [linesKE_line_cons _ (by
    intro hm
    rcases List.mem_append.mp hm with h | h
    · exact absurd h (by decide)
    · exact natChars_no_nl d h)]
  exact List.mem_cons_self _ _

/-- C8: every rendered tree-index document carries a toctree
maxdepth hint line, with value 2 on the pages listing provinces
(root index) and districts (per-gubernia index) and value 1 on the
pages listing cantons (per-uezd index) and localities (per-volost
index). -/
theorem claim_C8_maxdepth (gubs : List Gubernia) (g : Gubernia) (u : Uezd)
    (v : Volost) :
    "   :maxdepth: 2\n".data ∈ linesKE (root_index_rst gubs)
    ∧ "   :maxdepth: 2\n".data ∈ linesKE (gubernia_index_rst g)
    ∧ "   :maxdepth: 1\n".data ∈ linesKE (uezd_index_rst u)
    ∧ "   :maxdepth: 1\n".data ∈ linesKE (volost_index_rst v) := by
  have e2 : "   :maxdepth: 2\n".data = "   :maxdepth: ".data ++ natChars 2 ++ ['\n'] := by
    decide
  have e1 : "   :maxdepth: 1\n".data = "   :maxdepth: ".data ++ natChars 1 ++ ['\n'] := by
    decide
  exact ⟨e2 ▸ tree_templ_maxdepth _ _ 2, e2 ▸ tree_templ_maxdepth _ _ 2,
    e1 ▸ tree_templ_maxdepth _ _ 1, e1 ▸ tree_templ_maxdepth _ _ 1⟩

/-- C9: generate is deterministic and idempotent in document content:
because the output tree is cleared first and every document is a pure
function of the fetched data, the resulting tree is independent of
the prior output state, and rerunning on the same data reproduces it
byte for byte. -/
theorem claim_C9_deterministic (fs1 fs2 : FS) (gubs : List Gubernia) :
    generate fs1 gubs = generate fs2 gubs
    ∧ generate (generate fs1 gubs) gubs = generate fs1 gubs :=
  ⟨rfl, rfl⟩

/-- C10: format_table_row is total over rows with NULL fields: a None
column renders as the indented cell marker with empty content, the
row being the marker line followed by one cell block per column, and
NULL category or count reach format_table_row as None. -/
theorem claim_C10_none_cell :
    cellRender PyVal.vnone = "     - \n".data
    ∧ (∀ (cols : List PyVal) (counter : Nat), format_table_row cols counter
        = "   * - ".data ++ natChars counter ++ '\n' :: rowCells cols)
    ∧ (∀ cols : List PyVal, rowCells cols = (cols.map cellRender).flatten)
    ∧ (∀ r : CountRow, r.category = none → catCell r = PyVal.vnone)
    ∧ (∀ r : CountRow, r.comment = none → r.count = none →
        countCell r = PyVal.vnone) := by
  refine ⟨by decide, format_table_row_head, ?_, ?_, ?_⟩
  · intro cols
    induction cols with
    | nil => rfl
    | cons c cs ih => simp [rowCells, ih]
  · intro r h
    simp [catCell, h]
  · intro r h1 h2
    simp [countCell, h1, h2]

/-- C10 witness: a fully NULL row renders through the None branch. -/
theorem claim_C10_witness :
    catCell { category := none, count := none, comment := none } = PyVal.vnone :=
  claim_C10_none_cell.2.2.2.1 _ rfl

/-- C4: a commented row's displayed count is str(count) suffixed with
the marker glyph, comments are collected into the footnote list in
encounter order, and a locality none of whose rows carry comments
gets a datasheet equal to the bare table, with no footnote block. -/
theorem claim_C4_comment_marker (rows : List CountRow) :
    genCommentsList rows = rows.filterMap (fun r => r.comment)
    ∧ (∀ r ∈ rows, r.comment.isSome = true →
        countCell r = PyVal.vstr (String.mk (pyStr (match r.count with
          | none => PyVal.vnone
          | some n => PyVal.vint n) ++ "*".data)))
    ∧ (∀ r ∈ rows, r.comment.isSome = true →
        cellText (countCell r) = pyStr (match r.count with
          | none => PyVal.vnone
          | some n => PyVal.vint n) ++ "*".data)
    ∧ ((∀ r ∈ rows, r.comment = none) → datasheetBody rows = genTable rows 1) := by
  refine ⟨genCommentsList_filterMap rows, ?_, ?_, ?_⟩
  · intro r _ h
    rcases hc : r.comment with _ | c
    · rw [hc] at h; exact absurd h (by decide)
    · simp [countCell, hc]
  · intro r hr h
    rcases hc : r.comment with _ | c
    · rw [hc] at h; exact absurd h (by decide)
    · rcases hn : r.count with _ | n
      · simp only [countCell, hc, hn, cellText_vstr, pyStr]
        exact replaceNl_eq_self (by decide)
      · simp only [countCell, hc, hn, cellText_vstr, pyStr]
        refine replaceNl_eq_self ?_
        intro hm
        rcases List.mem_append.mp hm with hx | hx
        · exact intChars_no_nl n hx
        · exact absurd hx (by decide)
  · intro hall
    have hnil : genCommentsList rows = [] := by
      rw [genCommentsList_filterMap]
      simp only [List.filterMap_eq_nil_iff]
      exact hall
    simp [datasheetBody, hnil]

/-- C4 witness: one comment-free row yields the bare table. -/
theorem claim_C4_witness :
    datasheetBody [{ category := some "Разряд", count := some 4, comment := none }]
      = genTable [{ category := some "Разряд", count := some 4, comment := none }] 1 :=
  (claim_C4_comment_marker _).2.2.2 (by decide)

/-- C1: for a locality with at least one Count row, the footnote text
of the rendered data-table document holds exactly one entry per row
whose comment field is present (not SQL NULL), the entries numbered
1, 2, ... in row-encounter order, and the footnote block enters the
rendered document exactly when some comment was collected. -/
theorem claim_C1_footnotes (rows : List CountRow) (hne : rows ≠ []) :
    (genCommentsList rows).length = rows.countP (fun r => r.comment.isSome)
    ∧ genCommentTxt (genCommentsList rows) 1
      = ((List.enumFrom 1 (genCommentsList rows)).map
          (fun p => "(".data ++ natChars p.1 ++ "*) ".data ++ p.2.data
            ++ "\n".data ++ "\n".data)).flatten
    ∧ (genCommentsList rows ≠ [] →
        datasheetBody rows = genTable rows 1 ++ "\n".data ++ "\n".data
          ++ format_note (genCommentTxt (genCommentsList rows) 1))
    ∧ ∀ (name : String) (soc : Option String),
        gen_datasheet_doc name soc rows
          = datasheet_templ (indexKeyword name) (format_header name.data)
              (soc_line soc) (datasheetBody rows) := by
  refine ⟨genCommentsList_length rows, genCommentTxt_enumFrom _ 1, ?_, ?_⟩
  · intro hcomments
    have hlen : (genCommentsList rows).length > 0 := List.length_pos.mpr hcomments
    simp only [datasheetBody]
    rw [if_pos hlen]
  · intro name soc
    cases rows with
    | nil => exact absurd rfl hne
    | cons r rs => rfl

/-- C1 witness: two rows, one commented, yield the single footnote
entry numbered 1. -/
theorem claim_C1_witness :
    genCommentTxt (genCommentsList
      [{ category := some "Разряд А", count := some 5, comment := none },
       { category := some "Разряд Б", count := some 3, comment := some "оценка" }]) 1
      = ((List.enumFrom 1 (genCommentsList
          [{ category := some "Разряд А", count := some 5, comment := none },
           { category := some "Разряд Б", count := some 3, comment := some "оценка" }])).map
          (fun p => "(".data ++ natChars p.1 ++ "*) ".data ++ p.2.data
            ++ "\n".data ++ "\n".data)).flatten :=
  (claim_C1_footnotes _ (by decide)).2.1

/-- C3: for a locality with at least one Count row fetched in
ascending category-name order, the rendered table is exactly one
format_table_row block per Count row, in fetch order, the sequence
numbers forming the run 1..n, each block opening with its
sequence-number cell, and the rows pairwise ordered by category
name. -/
theorem claim_C3_table_rows (rows : List CountRow) (_hrows : rows ≠ [])
    (hsort : List.Chain' (fun a b => optLe a.category b.category) rows) :
    genTable rows 1
      = ((List.enumFrom 1 rows).map
          (fun p => format_table_row [catCell p.2, countCell p.2] p.1)).flatten
    ∧ (List.enumFrom 1 rows).map Prod.fst = List.range' 1 rows.length
    ∧ (∀ p ∈ List.enumFrom 1 rows,
        format_table_row [catCell p.2, countCell p.2] p.1
          = "   * - ".data ++ natChars p.1
            ++ '\n' :: rowCells [catCell p.2, countCell p.2])
    ∧ List.Pairwise (fun a b => optLe a.category b.category) rows := by
  refine ⟨genTable_enumFrom rows 1, enumFrom_fst rows 1, ?_, ?_⟩
  · intro p _
    exact format_table_row_head _ _
  · haveI : IsTrans CountRow (fun a b => optLe a.category b.category) :=
      ⟨fun a b c hab hbc => IsTrans.trans _ _ _ hab hbc⟩
    exact List.chain'_iff_pairwise.mp hsort

/-- C3 witness: a one-row locality instantiates the table shape. -/
theorem claim_C3_witness :
    genTable [{ category := some "Разряд А", count := some 5, comment := none }] 1
      = ((List.enumFrom 1
          [({ category := some "Разряд А", count := some 5, comment := none } : CountRow)]).map
          (fun p => format_table_row [catCell p.2, countCell p.2] p.1)).flatten :=
  (claim_C3_table_rows _ (by decide) (List.chain'_singleton _)).1

/-- C5 counterexample: for the cell value holding a newline between
two letters, the rendered continuation line carries ten spaces of
padding, not the seven that would align it under the cell content
column, so the claimed alignment fails. -/
theorem claim_C5_counterexample :
    format_table_row [PyVal.vstr "a\nb"] 1
      = "   * - 1\n     - a\n\n          b\n".data
    ∧ format_table_row [PyVal.vstr "a\nb"] 1
      ≠ "   * - 1\n     - a\n\n       b\n".data :=
  ⟨by decide, by decide⟩

/-- C5 amended: each newline embedded in a cell value is rewritten
into a blank line followed by a continuation line padded with ten
spaces (the three-space table indent plus seven), three columns to
the right of the cell-content column, provided no piece after the
first is whitespace-only; a value without newlines is emitted
unchanged behind the cell marker. -/
theorem claim_C5_amended (s : String) (counter : Nat)
    (h : ∀ t ∈ (splitNl s.data).tail, t.all isPyWS = false) :
    cellRender (PyVal.vstr s)
      = "     - ".data ++ joinSep "\n\n          ".data (splitNl s.data) ++ ['\n']
    ∧ ('\n' ∉ s.data →
        cellRender (PyVal.vstr s) = "     - ".data ++ s.data ++ ['\n'])
    ∧ format_table_row [PyVal.vstr s] counter
      = "   * - ".data ++ natChars counter ++ '\n' :: cellRender (PyVal.vstr s) := by
  refine ⟨cellRender_vstr s h, fun hnl => cellRender_vstr_no_nl s hnl, ?_⟩
  rw [format_table_row_head]
  simp [rowCells]

/-- C5 witness: the two-piece value renders with the ten-space
continuation padding. -/
theorem claim_C5_witness :
    cellRender (PyVal.vstr "a\nb")
      = "     - ".data ++ joinSep "\n\n          ".data (splitNl "a\nb".data)
        ++ ['\n'] :=
  (claim_C5_amended "a\nb" 1 (by decide)).1

set_option maxRecDepth 20000 in
/-- C6: the index keyword written into every datasheet document (data
and empty templates alike) is the locality display name with its
first whitespace-delimited token dropped and the remaining tokens
kept, joined by single spaces; it contains no newline, so it is
exactly the rest of the index line. -/
theorem claim_C6_index_keyword (name : String) (soc : Option String)
    (rows : List CountRow) :
    (∃ rest, gen_datasheet_doc name soc rows
      = "\n".data ++ ".. Datasheet RST template".data ++ "\n".data
        ++ ".. Autogenerated by gp-sphinx.py".data ++ "\n".data ++ "\n".data
        ++ ".. index:: ".data
        ++ joinSep " ".data ((pySplitWS name.data).drop 1) ++ '\n' :: rest)
    ∧ indexKeyword name = joinSep " ".data ((pySplitWS name.data).drop 1)
    ∧ '\n' ∉ indexKeyword name := by
  refine ⟨?_, rfl, indexKeyword_no_nl name⟩
  cases rows with
  | nil =>
    refine ⟨"\n".data ++ format_header name.data ++ "\n".data ++ "\n".data
      ++ "Сельское общество".data ++ "\n".data
      ++ "-----------------".data ++ "\n".data
      ++ soc_line soc ++ "\n".data ++ "\n".data
      ++ "Сведения о государственных крестьянах".data ++ "\n".data
      ++ "--------------------------------------".data ++ "\n".data ++ "\n".data
      ++ "В окладной ведомости сведения о числе государственных крестьян отсутствуют.".data
      ++ "\n".data ++ "\n".data, ?_⟩
    simp only [gen_datasheet_doc, datasheet_empty_templ, indexKeyword, nl_data,
      List.append_assoc, List.singleton_append, List.cons_append, List.nil_append]
  | cons r rs =>
    refine ⟨"\n".data ++ format_header name.data ++ "\n".data ++ "\n".data
      ++ "Сельское общество".data ++ "\n".data
      ++ "-----------------".data ++ "\n".data
      ++ soc_line soc ++ "\n".data ++ "\n".data
      ++ "Сведения о государственных крестьянах".data ++ "\n".data
      ++ "--------------------------------------".data ++ "\n".data ++ "\n".data
      ++ ".. list-table::".data ++ "\n".data
      ++ "   :header-rows: 1".data ++ "\n".data
      ++ "   :widths: 10 70 20".data ++ "\n".data ++ "\n".data
      ++ "   * - #".data ++ "\n".data
      ++ "     - Категория крестьян".data ++ "\n".data
      ++ "     - Количество душ м.п.".data ++ "\n".data ++ "\n".data
      ++ datasheetBody (r :: rs) ++ "\n".data ++ "\n".data, ?_⟩
    simp only [gen_datasheet_doc, datasheet_templ, indexKeyword, nl_data,
      List.append_assoc, List.singleton_append, List.cons_append, List.nil_append]

set_option maxRecDepth 20000 in
set_option maxHeartbeats 2000000 in
/-- C2 counterexample: a locality whose associated community row
exists but carries the empty string as name renders exactly the same
document as a locality with no community at all, because the source
uses a Python falsy test; its community line shows the fixed label,
not the community's (empty) name, refuting the claim as stated at
this input. -/
theorem claim_C2_counterexample :
    gen_datasheet_doc "дер. Тест" (some "") []
      = gen_datasheet_doc "дер. Тест" none []
    ∧ soc_line (some "") = undefined_label.data ++ ".".data
    ∧ soc_line (some "") ≠ "".data ++ ".".data
    ∧ (some "" : Option String) ≠ none :=
  ⟨by decide, by decide, by decide, by decide⟩

set_option maxRecDepth 20000 in
set_option maxHeartbeats 2000000 in
/-- C2 amended: in every rendered datasheet document the line that
follows the community header's underline equals the fixed label
followed by a period when the locality has no associated community
or the community name is empty, and otherwise the community's name
followed by a period. -/
theorem claim_C2_community_line (name : String) (soc : Option String)
    (rows : List CountRow) (hs : '\n' ∉ soc_display soc) :
    (∃ pre post, linesKE (gen_datasheet_doc name soc rows)
      = pre ++ ("Сельское общество".data ++ ['\n'])
          :: ("-----------------".data ++ ['\n'])
          :: (soc_line soc ++ ['\n']) :: post)
    ∧ (soc = none ∨ soc = some "" →
        soc_line soc = undefined_label.data ++ ".".data)
    ∧ (∀ s : String, soc = some s → s ≠ "" →
        soc_line soc = s.data ++ ".".data) := by
  have hsoc_nl : '\n' ∉ soc_line soc := by
    intro hm
    rcases List.mem_append.mp hm with h | h
    · exact hs h
    · exact absurd h (by decide)
  refine ⟨?_, ?_, ?_⟩
  · cases rows with
    | nil =>
      refine ⟨linesKE (("\n".data ++ ".. Datasheet RST template".data ++ "\n".data
          ++ ".. Autogenerated by gp-sphinx.py".data ++ "\n".data ++ "\n".data
          ++ ".. index:: ".data ++ indexKeyword name ++ "\n".data ++ "\n".data
          ++ format_header name.data ++ "\n".data) ++ ['\n']),
        linesKE ("\n".data ++ "Сведения о государственных крестьянах".data
          ++ "\n".data ++ "--------------------------------------".data
          ++ "\n".data ++ "\n".data
          ++ "В окладной ведомости сведения о числе государственных крестьян отсутствуют.".data
          ++ "\n".data ++ "\n".data), ?_⟩
      have e : gen_datasheet_doc name soc []
          = (("\n".data ++ ".. Datasheet RST template".data ++ "\n".data
              ++ ".. Autogenerated by gp-sphinx.py".data ++ "\n".data ++ "\n".data
              ++ ".. index:: ".data ++ indexKeyword name ++ "\n".data ++ "\n".data
              ++ format_header name.data ++ "\n".data) ++ ['\n'])
            ++ ("Сельское общество".data ++ '\n'
              :: ("-----------------".data ++ '\n'
                :: (soc_line soc ++ '\n'
                  :: ("\n".data ++ "Сведения о государственных крестьянах".data
                    ++ "\n".data ++ "--------------------------------------".data
                    ++ "\n".data ++ "\n".data
                    ++ "В окладной ведомости сведения о числе государственных крестьян отсутствуют.".data
                    ++ "\n".data ++ "\n".data)))) := by
        simp only [gen_datasheet_doc, datasheet_empty_templ, nl_data,
          List.append_assoc, List.singleton_append, List.cons_append,
          List.nil_append]
      have hmid : linesKE ("Сельское общество".data ++ '\n'
            :: ("-----------------".data ++ '\n'
              :: (soc_line soc ++ '\n'
                :: ("\n".data ++ "Сведения о государственных крестьянах".data
                  ++ "\n".data ++ "--------------------------------------".data
                  ++ "\n".data ++ "\n".data
                  ++ "В окладной ведомости сведения о числе государственных крестьян отсутствуют.".data
                  ++ "\n".data ++ "\n".data))))
          = ("Сельское общество".data ++ ['\n'])
            :: ("-----------------".data ++ ['\n'])
            :: (soc_line soc ++ ['\n'])
            :: linesKE ("\n".data ++ "Сведения о государственных крестьянах".data
              ++ "\n".data ++ "--------------------------------------".data
              ++ "\n".data ++ "\n".data
              ++ "В окладной ведомости сведения о числе государственных крестьян отсутствуют.".data
              ++ "\n".data ++ "\n".data) := by
        rw [linesKE_line_cons _ (by decide), linesKE_line_cons _ (by decide),
          linesKE_line_cons _ hsoc_nl]
      rw [e, linesKE_append_newline, hmid]
    | cons r rs =>
      refine ⟨linesKE (("\n".data ++ ".. Datasheet RST template".data ++ "\n".data
          ++ ".. Autogenerated by gp-sphinx.py".data ++ "\n".data ++ "\n".data
          ++ ".. index:: ".data ++ indexKeyword name ++ "\n".data ++ "\n".data
          ++ format_header name.data ++ "\n".data) ++ ['\n']),
        linesKE ("\n".data ++ "Сведения о государственных крестьянах".data
          ++ "\n".data ++ "--------------------------------------".data
          ++ "\n".data ++ "\n".data
          ++ ".. list-table::".data ++ "\n".data
          ++ "   :header-rows: 1".data ++ "\n".data
          ++ "   :widths: 10 70 20".data ++ "\n".data ++ "\n".data
          ++ "   * - #".data ++ "\n".data
          ++ "     - Категория крестьян".data ++ "\n".data
          ++ "     - Количество душ м.п.".data ++ "\n".data ++ "\n".data
          ++ datasheetBody (r :: rs) ++ "\n".data ++ "\n".data), ?_⟩
      have e : gen_datasheet_doc name soc (r :: rs)
          = (("\n".data ++ ".. Datasheet RST template".data ++ "\n".data
              ++ ".. Autogenerated by gp-sphinx.py".data ++ "\n".data ++ "\n".data
              ++ ".. index:: ".data ++ indexKeyword name ++ "\n".data ++ "\n".data
              ++ format_header name.data ++ "\n".data) ++ ['\n'])
            ++ ("Сельское общество".data ++ '\n'
              :: ("-----------------".data ++ '\n'
                :: (soc_line soc ++ '\n'
                  :: ("\n".data ++ "Сведения о государственных крестьянах".data
                    ++ "\n".data ++ "--------------------------------------".data
                    ++ "\n".data ++ "\n".data
                    ++ ".. list-table::".data ++ "\n".data
                    ++ "   :header-rows: 1".data ++ "\n".data
                    ++ "   :widths: 10 70 20".data ++ "\n".data ++ "\n".data
                    ++ "   * - #".data ++ "\n".data
                    ++ "     - Категория крестьян".data ++ "\n".data
                    ++ "     - Количество душ м.п.".data ++ "\n".data ++ "\n".data
                    ++ datasheetBody (r :: rs) ++ "\n".data ++ "\n".data)))) := by
        simp only [gen_datasheet_doc, datasheet_templ, nl_data,
          List.append_assoc, List.singleton_append, List.cons_append,
          List.nil_append]
      have hmid : linesKE ("Сельское общество".data ++ '\n'
            :: ("-----------------".data ++ '\n'
              :: (soc_line soc ++ '\n'
                :: ("\n".data ++ "Сведения о государственных крестьянах".data
                  ++ "\n".data ++ "--------------------------------------".data
                  ++ "\n".data ++ "\n".data
                  ++ ".. list-table::".data ++ "\n".data
                  ++ "   :header-rows: 1".data ++ "\n".data
                  ++ "   :widths: 10 70 20".data ++ "\n".data ++ "\n".data
                  ++ "   * - #".data ++ "\n".data
                  ++ "     - Категория крестьян".data ++ "\n".data
                  ++ "     - Количество душ м.п.".data ++ "\n".data ++ "\n".data
                  ++ datasheetBody (r :: rs) ++ "\n".data ++ "\n".data))))
          = ("Сельское общество".data ++ ['\n'])
            :: ("-----------------".data ++ ['\n'])
            :: (soc_line soc ++ ['\n'])
            :: linesKE ("\n".data ++ "Сведения о государственных крестьянах".data
              ++ "\n".data ++ "--------------------------------------".data
              ++ "\n".data ++ "\n".data
              ++ ".. list-table::".data ++ "\n".data
              ++ "   :header-rows: 1".data ++ "\n".data
              ++ "   :widths: 10 70 20".data ++ "\n".data ++ "\n".data
              ++ "   * - #".data ++ "\n".data
              ++ "     - Категория крестьян".data ++ "\n".data
              ++ "     - Количество душ м.п.".data ++ "\n".data ++ "\n".data
              ++ datasheetBody (r :: rs) ++ "\n".data ++ "\n".data) := by
        rw [linesKE_line_cons _ (by decide), linesKE_line_cons _ (by decide),
          linesKE_line_cons _ hsoc_nl]
      rw [e, linesKE_append_newline, hmid]
  · intro hcase
    rcases hcase with h | h
    · subst h; rfl
    · subst h; simp [soc_line, soc_display]
  · intro s hsome hne2
    subst hsome
    simp [soc_line, soc_display, hne2]

/-- C2 witness: a nonempty community name appears on the community
line with the trailing period. -/
theorem claim_C2_witness :
    soc_line (some "Никольское") = "Никольское".data ++ ".".data :=
  (claim_C2_community_line "дер. Тест" (some "Никольское") [] (by decide)).2.2
    "Никольское" rfl (by decide)

set_option maxRecDepth 20000 in
set_option maxHeartbeats 2000000 in
/-- C7: a locality with zero Count rows renders the empty-data
template, with the same index, title and community-line slot values
the data-table document would use; its lines are exactly the fixed
skeleton around those slots, the fixed no-data sentence is one full
line of it, and no line of it is the list-table directive line, so
the document carries no table. -/
theorem claim_C7_empty_doc (name : String) (soc : Option String)
    (hn : '\n' ∉ name.data) (hs : '\n' ∉ soc_display soc)
    (hname : name ≠ ".. list-table::") :
    gen_datasheet_doc name soc []
      = datasheet_empty_templ (indexKeyword name) (format_header name.data)
          (soc_line soc)
    ∧ linesKE (gen_datasheet_doc name soc [])
      = [['\n'],
         ".. Datasheet RST template".data ++ ['\n'],
         ".. Autogenerated by gp-sphinx.py".data ++ ['\n'],
         ['\n'],
         ".. index:: ".data ++ indexKeyword name ++ ['\n'],
         ['\n'],
         name.data ++ ['\n'],
         List.replicate name.data.length '=' ++ ['\n'],
         ['\n'],
         "Сельское общество".data ++ ['\n'],
         "-----------------".data ++ ['\n'],
         soc_line soc ++ ['\n'],
         ['\n'],
         "Сведения о государственных крестьянах".data ++ ['\n'],
         "--------------------------------------".data ++ ['\n'],
         ['\n'],
         "В окладной ведомости сведения о числе государственных крестьян отсутствуют.".data ++ ['\n'],
         ['\n']]
    ∧ "В окладной ведомости сведения о числе государственных крестьян отсутствуют.".data ++ ['\n']
        ∈ linesKE (gen_datasheet_doc name soc [])
    ∧ ∀ l ∈ linesKE (gen_datasheet_doc name soc []),
        l ≠ ".. list-table::".data ++ ['\n'] := by
  have hidx : '\n' ∉ ".. index:: ".data ++ indexKeyword name := by
    intro hm
    rcases List.mem_append.mp hm with h | h
    · exact absurd h (by decide)
    · exact indexKeyword_no_nl name h
  have hsoc_nl : '\n' ∉ soc_line soc := by
    intro hm
    rcases List.mem_append.mp hm with h | h
    · exact hs h
    · exact absurd h (by decide)
  have hpad : '\n' ∉ List.replicate name.data.length '=' := by
    intro hm
    exact absurd (List.eq_of_mem_replicate hm) (by decide)
  have e : gen_datasheet_doc name soc []
      = '\n' :: (".. Datasheet RST template".data
        ++ '\n' :: (".. Autogenerated by gp-sphinx.py".data
        ++ '\n' :: ('\n' :: ((".. index:: ".data ++ indexKeyword name)
        ++ '\n' :: ('\n' :: (name.data
        ++ '\n' :: (List.replicate name.data.length '='
        ++ '\n' :: ('\n' :: ("Сельское общество".data
        ++ '\n' :: ("-----------------".data
        ++ '\n' :: (soc_line soc
        ++ '\n' :: ('\n' :: ("Сведения о государственных крестьянах".data
        ++ '\n' :: ("--------------------------------------".data
        ++ '\n' :: ('\n' :: ("В окладной ведомости сведения о числе государственных крестьян отсутствуют.".data
        ++ '\n' :: ['\n'])))))))))))))))) := by
    simp only [gen_datasheet_doc, datasheet_empty_templ, format_header, nl_data,
      List.append_assoc, List.singleton_append, List.cons_append, List.nil_append]
  have hlines : linesKE (gen_datasheet_doc name soc [])
      = [['\n'],
         ".. Datasheet RST template".data ++ ['\n'],
         ".. Autogenerated by gp-sphinx.py".data ++ ['\n'],
         ['\n'],
         ".. index:: ".data ++ indexKeyword name ++ ['\n'],
         ['\n'],
         name.data ++ ['\n'],
         List.replicate name.data.length '=' ++ ['\n'],
         ['\n'],
         "Сельское общество".data ++ ['\n'],
         "-----------------".data ++ ['\n'],
         soc_line soc ++ ['\n'],
         ['\n'],
         "Сведения о государственных крестьянах".data ++ ['\n'],
         "--------------------------------------".data ++ ['\n'],
         ['\n'],
         "В окладной ведомости сведения о числе государственных крестьян отсутствуют.".data ++ ['\n'],
         ['\n']] := by
    rw [e, linesKE_nl_cons, linesKE_line_cons _ (by decide),
      linesKE_line_cons _ (by decide), linesKE_nl_cons,
      linesKE_line_cons _ hidx, linesKE_nl_cons,
      linesKE_line_cons _ hn, linesKE_line_cons _ hpad, linesKE_nl_cons,
      linesKE_line_cons _ (by decide), linesKE_line_cons _ (by decide),
      linesKE_line_cons _ hsoc_nl, linesKE_nl_cons,
      linesKE_line_cons _ (by decide), linesKE_line_cons _ (by decide),
      linesKE_nl_cons, linesKE_line_cons _ (by decide), linesKE_nl_cons]
    rfl
  refine ⟨rfl, hlines, ?_, ?_⟩
  · rw [hlines]
    simp
  · rw [hlines]
    intro l hl
    simp only [List.mem_cons, List.not_mem_nil, or_false] at hl
    rcases hl with rfl|rfl|rfl|rfl|rfl|rfl|rfl|rfl|rfl|rfl|rfl|rfl|rfl|rfl|rfl|rfl|rfl|rfl
    · decide
    · decide
    · decide
    · decide
    · intro heq
      have h2 := List.append_cancel_right heq
      have h3 := congrArg (List.take 4) h2
      rw [List.take_append_of_le_length (by decide)] at h3
      exact absurd h3 (by decide)
    · decide
    · intro heq
      have h2 := List.append_cancel_right heq
      exact hname (congrArg String.mk h2)
    · intro heq
      have h2 := List.append_cancel_right heq
      have h3 : '.' ∈ List.replicate name.data.length '=' := by
        rw [h2]; decide
      exact absurd (List.eq_of_mem_replicate h3) (by decide)
    · decide
    · decide
    · decide
    · intro heq
      have h2 := List.append_cancel_right heq
      have h3 : (soc_line soc).getLast? = some '.' := List.getLast?_concat _
      rw [h2] at h3
      exact absurd h3 (by decide)
    · decide
    · decide
    · decide
    · decide
    · decide
    · decide

/-- C7 witness: a concrete locality with no Count rows instantiates
the empty-data document shape. -/
theorem claim_C7_witness :
    gen_datasheet_doc "дер. Тест" (some "Никольское") []
      = datasheet_empty_templ (indexKeyword "дер. Тест")
          (format_header "дер. Тест".data) (soc_line (some "Никольское")) :=
  (claim_C7_empty_doc "дер. Тест" (some "Никольское") (by decide) (by decide)
    (by decide)).1
